import Mathlib

/-!
Shallow embedding of the mlnative render daemon (src/rust/src/main.rs): a
line-driven command dispatcher over a headless map renderer.  External
collaborators (the maplibre engine, the filesystem, the JSON codec, the
PNG codec and base64) are modelled as oracle functions gathered in a
`World`; the repository's own control flow is translated function by
function.  Engine calls and filesystem effects are recorded in an event
trace so that temporal and effect claims can be stated.
-/

set_option maxHeartbeats 1000000

namespace MlNative

/-- Stand-in for IEEE f64 values carried on the wire.  The program only
forwards these values (center, zoom, bearing, pitch, pixel ratio) between
the JSON codec and the engine and never computes with them, so any type
with decidable equality is a faithful carrier. -/
abbrev F64 := Int

abbrev Path := String

/-- Opaque raster handle produced by the engine render call. -/
abbrev Image := Nat

/-- GeoJSON payload of a batch view (HashMap of source id to JSON value in
the source).  The program never inspects it: update_geojson_sources
ignores its argument. -/
abbrev GeoJson := List (String × String)

/-- Error type of the external engine render call (RenderingError in the
maplibre_native crate).  The source names only the StyleNotSpecified
variant; other engine failures are carried abstractly together with their
Debug text. -/
inductive RenderingError where
  | styleNotSpecified
  | other (dtxt : String)
deriving DecidableEq

/-- Debug formatting of the engine error, modelling the derived Rust Debug
instance: a fieldless variant prints as its bare name. -/
def RenderingError.debugRepr : RenderingError → String
  | .styleNotSpecified => "StyleNotSpecified"
  | .other dtxt => dtxt

/-- A boxed error value (Box of dyn Error in the source).  A box created
from a string literal Debug-prints as the quoted string (the std library
StringError forwards Debug to the inner String); errors coming from
external crates are carried with their Debug text directly. -/
inductive BoxErr where
  | fromStr (s : String)
  | external (dtxt : String)
deriving DecidableEq

/-- Debug formatting of a boxed error, as used by the format strings of
the dispatcher arms. -/
def BoxErr.debugRepr : BoxErr → String
  | .fromStr s => "\"" ++ s ++ "\""
  | .external dtxt => dtxt

/-- View of a render_batch command.  center models the two element array
of the wire format: center.1 is center[0] (longitude), center.2 is
center[1] (latitude). -/
structure View where
  center : F64 × F64
  zoom : F64
  bearing : F64
  pitch : F64
  geojson : Option GeoJson
deriving DecidableEq

/-- The tagged command union decoded from one input line. -/
inductive Command where
  | init (width height : Nat) (style : String) (pixelDensity : F64)
      (protocol_version : Option String)
  | reload_style (style : String)
  | render (center : F64 × F64) (zoom bearing pitch : F64)
  | render_batch (views : List View)
  | quit
deriving DecidableEq

/-- One output record: status tag plus optional png payload and optional
error message (fields skipped when None by the serializer). -/
structure Response where
  status : String
  png : Option String
  error : Option String
deriving DecidableEq

/-- The mutable renderer record of the source: an optional engine handle
(engine instances are identified by the build counter), the configured
dimensions, and the registry of temporary files created for inline
styles. -/
structure Renderer where
  renderer : Option Nat
  width : Nat
  height : Nat
  temp_files : List Path
deriving DecidableEq

def Renderer.new : Renderer :=
  { renderer := none, width := 512, height := 512, temp_files := [] }

/-- Observable events of a run: line reads, emitted responses, the
explicit stdout flush, filesystem effects, and engine calls.  A fileWrite
is recorded when std fs write succeeds (the file then exists); engine
call events are recorded whenever the call is made, whatever its
result. -/
inductive Ev where
  | readLine (line : String)
  | emitResponse (resp : Response)
  | flushOut
  | fileWrite (path : Path) (content : String)
  | fileRemove (path : Path)
  | engineBuild (eng : Nat)
  | engineLoadUrl (eng : Nat) (url : String)
  | engineLoadPath (eng : Nat) (path : Path)
  | engineRender (eng : Nat) (lat lon zoom bearing pitch : F64)
deriving DecidableEq

/-- Filesystem contents, as a list of path and content pairs. -/
structure VFS where
  files : List (Path × String)
deriving DecidableEq

def VFS.existsFile (v : VFS) (p : Path) : Bool :=
  v.files.any (fun e => e.1 = p)

def VFS.writeFile (v : VFS) (p : Path) (c : String) : VFS :=
  ⟨(p, c) :: v.files⟩

def VFS.removePath (v : VFS) (p : Path) : VFS :=
  ⟨v.files.filter (fun e => ¬ (e.1 = p))⟩

/-- Behaviour of all external collaborators, as deterministic oracles:
process identity and temp dir, the serde decoder, the URL parser (None
models a parse failure), filesystem write and remove outcomes, the engine
style loader and render call, and the PNG writer and base64 encoder used
by encode_png. -/
structure World where
  pid : Nat
  tempDir : String
  decode : String → Except String Command
  parseUrl : String → Option String
  fsWriteErr : Path → String → Option String
  removeOk : Path → Bool
  loadPathErr : Nat → Path → Option String
  renderStatic : Nat → F64 → F64 → F64 → F64 → F64 → Except RenderingError Image
  imageWrite : Image → Except String (List Nat)
  b64 : List Nat → String

/-- Character-list prefix test. -/
def charsLead : List Char → List Char → Bool
  | [], _ => true
  | _ :: _, [] => false
  | a :: as, b :: bs => a == b && charsLead as bs

/-- Models the str starts_with tests of the source (same meaning as
String.startsWith, stated on the character data so that it evaluates
inside the kernel). -/
def strStartsWith (s pre : String) : Bool :=
  charsLead pre.data s.data

/-- Models the trim().is_empty() blank-line test of the dispatcher: the
line consists of whitespace only. -/
def isBlankLine (l : String) : Bool :=
  l.data.all (fun c => c.isWhitespace)

/-- Temporary file path chosen for an inline style: the format string
mlnative_style_pid_count.json joined onto the temp dir, where count is
the current length of the temp file registry. -/
def mkTempPath (w : World) (count : Nat) : Path :=
  w.tempDir ++ "/mlnative_style_" ++ Nat.repr w.pid ++ "_" ++ Nat.repr count ++ ".json"

deriving instance DecidableEq for Except

/-- Result of Renderer.load_style: outcome, updated registry, updated
filesystem, events. -/
structure StyleOut where
  res : Except BoxErr Unit
  temp_files : List Path
  vfs : VFS
  evs : List Ev
deriving DecidableEq

/-- Renderer::load_style.  Prefix classification in source order: remote
URL schemes first (parse, then hand to the engine URL loader), then
inline definitions (write the full string to a fresh temp path, load by
path, register the path only after the load succeeds), otherwise hand the
string itself to the engine path loader. -/
def load_style (w : World) (eng : Nat) (style : String)
    (temp_files : List Path) (vfs : VFS) : StyleOut :=
  if strStartsWith style "http://" || strStartsWith style "https://"
      || strStartsWith style "file://" then
    match w.parseUrl style with
    | none => ⟨.error (.fromStr "Invalid style URL"), temp_files, vfs, []⟩
    | some url => ⟨.ok (), temp_files, vfs, [.engineLoadUrl eng url]⟩
  else if strStartsWith style "\x7b" then
    match w.fsWriteErr (mkTempPath w temp_files.length) style with
    | some e => ⟨.error (.external e), temp_files, vfs, []⟩
    | none =>
      match w.loadPathErr eng (mkTempPath w temp_files.length) with
      | some e =>
        ⟨.error (.external e), temp_files,
          vfs.writeFile (mkTempPath w temp_files.length) style,
          [.fileWrite (mkTempPath w temp_files.length) style,
            .engineLoadPath eng (mkTempPath w temp_files.length)]⟩
      | none =>
        ⟨.ok (), temp_files ++ [mkTempPath w temp_files.length],
          vfs.writeFile (mkTempPath w temp_files.length) style,
          [.fileWrite (mkTempPath w temp_files.length) style,
            .engineLoadPath eng (mkTempPath w temp_files.length)]⟩
  else
    match w.loadPathErr eng style with
    | some e => ⟨.error (.external e), temp_files, vfs, [.engineLoadPath eng style]⟩
    | none => ⟨.ok (), temp_files, vfs, [.engineLoadPath eng style]⟩

/-- Result of Renderer.init: updated renderer record, filesystem, engine
build counter, outcome, events. -/
structure InitOut where
  rend : Renderer
  vfs : VFS
  engCount : Nat
  res : Except BoxErr Unit
  evs : List Ev
deriving DecidableEq

/-- Renderer::init.  Width and height are stored into the record first,
before the NonZeroU32 validation; on zero either dimension the command
fails without building an engine.  Otherwise a fresh engine instance is
built (identified by the build counter) and the style is loaded; the
engine handle is installed only when the load fully succeeds. -/
def Renderer.init (w : World) (r : Renderer) (vfs : VFS) (engCount : Nat)
    (width height : Nat) (style : String) (_pixelDensity : F64) : InitOut :=
  if width = 0 then
    ⟨{ r with width := width, height := height }, vfs, engCount,
      .error (.fromStr "Width must be non-zero"), []⟩
  else if height = 0 then
    ⟨{ r with width := width, height := height }, vfs, engCount,
      .error (.fromStr "Height must be non-zero"), []⟩
  else
    match load_style w engCount style r.temp_files vfs with
    | ⟨.error e, tf, vfs1, evs⟩ =>
      ⟨{ r with width := width, height := height, temp_files := tf }, vfs1,
        engCount + 1, .error e, .engineBuild engCount :: evs⟩
    | ⟨.ok _, tf, vfs1, evs⟩ =>
      ⟨{ r with width := width, height := height, temp_files := tf, renderer := some engCount },
        vfs1, engCount + 1, .ok (), .engineBuild engCount :: evs⟩

/-- Renderer::render.  With no engine handle it fails with the engine
error StyleNotSpecified; otherwise it calls render_static with the
center components swapped: center[1] (latitude) first, center[0]
(longitude) second. -/
def Renderer.render (w : World) (r : Renderer) (center : F64 × F64)
    (zoom bearing pitch : F64) : Except RenderingError Image × List Ev :=
  match r.renderer with
  | none => (.error .styleNotSpecified, [])
  | some eng =>
    (w.renderStatic eng center.2 center.1 zoom bearing pitch,
      [.engineRender eng center.2 center.1 zoom bearing pitch])

/-- Renderer::update_geojson_sources: a hook that ignores its payload and
always succeeds. -/
def Renderer.update_geojson_sources (_r : Renderer) (_geojson_updates : GeoJson) :
    Except BoxErr Unit :=
  .ok ()

/-- Result of Renderer.reload_style. -/
structure ReloadOut where
  rend : Renderer
  vfs : VFS
  res : Except BoxErr Unit
  evs : List Ev
deriving DecidableEq

/-- Renderer::reload_style: fails with a boxed string error when no engine
handle is present, otherwise loads the new style into the existing
engine. -/
def Renderer.reload_style (w : World) (r : Renderer) (vfs : VFS)
    (style : String) : ReloadOut :=
  match r.renderer with
  | none => ⟨r, vfs, .error (.fromStr "Renderer not initialized"), []⟩
  | some eng =>
    ⟨{ r with temp_files := (load_style w eng style r.temp_files vfs).temp_files },
      (load_style w eng style r.temp_files vfs).vfs,
      (load_style w eng style r.temp_files vfs).res,
      (load_style w eng style r.temp_files vfs).evs⟩

/-- Renderer::cleanup_temp_files: best-effort removal of every tracked
path (a failed removal is ignored), then the registry is cleared. -/
def removeF (w : World) (vfs : VFS) (p : Path) : VFS :=
  if w.removeOk p then vfs.removePath p else vfs

def Renderer.cleanup_temp_files (w : World) (r : Renderer) (vfs : VFS) :
    Renderer × VFS × List Ev :=
  ({ r with temp_files := [] },
    r.temp_files.foldl (fun acc p => removeF w acc p) vfs,
    r.temp_files.map (fun p => Ev.fileRemove p))

/-- encode_png: write the raster through the image codec, mapping a codec
failure to the prefixed message, then base64 encode the bytes. -/
def encode_png (w : World) (image : Image) : Except String String :=
  match w.imageWrite image with
  | .error e => .error ("Failed to encode PNG: " ++ e)
  | .ok png_bytes => .ok (w.b64 png_bytes)

/-- send_response: serialize the record, falling back to a fixed error
line when serialization fails, and print the result as one line. -/
def send_response (serialize : Response → Option String) (resp : Response) :
    String :=
  (serialize resp).getD "\x7b\"status\":\"error\",\"error\":\"JSON encode failed\"\x7d"

def PROTOCOL_VERSION : String := "1.0"

/-- Loop control after one dispatched line: fall through to the flush at
the bottom of the loop body, skip it via continue, or break out. -/
inductive LoopCtl where
  | next
  | skip
  | halt
deriving DecidableEq

/-- The dispatcher state threaded through the loop: the renderer record,
the filesystem, and the engine build counter. -/
structure LoopSt where
  rend : Renderer
  vfs : VFS
  engCount : Nat
deriving DecidableEq

/-- Result of dispatching one command or one line. -/
structure StepOut where
  st : LoopSt
  evs : List Ev
  ctl : LoopCtl
deriving DecidableEq

/-- Result label and event trace of the batch loop. -/
structure BatchOut where
  resp : Response
  evs : List Ev
deriving DecidableEq

/-- The view loop of the RenderBatch arm: per view, run the geojson hook
when a payload is present, then render and encode; the first failure
produces its error response and stops (discarding the accumulator), and
when every view succeeds the accumulated encodings are joined with a
comma. -/
def geoStep (r : Renderer) (view : View) : Except BoxErr Unit :=
  match view.geojson with
  | some geojson => Renderer.update_geojson_sources r geojson
  | none => .ok ()

def batchGo (w : World) (r : Renderer) : List View → List String → BatchOut
  | [], pngs => ⟨⟨"ok", some (String.intercalate "," pngs), none⟩, []⟩
  | view :: rest, pngs =>
    match geoStep r view with
    | .error e =>
      ⟨⟨"error", none, some ("GeoJSON update failed: " ++ e.debugRepr)⟩, []⟩
    | .ok _ =>
      match Renderer.render w r view.center view.zoom view.bearing view.pitch with
      | (.ok image, evs) =>
        match encode_png w image with
        | .ok png_b64 =>
          ⟨(batchGo w r rest (pngs ++ [png_b64])).resp,
            evs ++ (batchGo w r rest (pngs ++ [png_b64])).evs⟩
        | .error e => ⟨⟨"error", none, some e⟩, evs⟩
      | (.error e, evs) =>
        ⟨⟨"error", none, some ("Batch render failed: " ++ e.debugRepr)⟩, evs⟩

/-- The Init arm after the protocol version gate: run Renderer::init and
emit ok or the Init failed message. -/
def runInit (w : World) (st : LoopSt) (width height : Nat) (style : String)
    (pixelDensity : F64) : StepOut :=
  match Renderer.init w st.rend st.vfs st.engCount width height style pixelDensity with
  | ⟨rend, vfs, engCount, .ok _, evs⟩ =>
    ⟨⟨rend, vfs, engCount⟩, evs ++ [.emitResponse ⟨"ok", none, none⟩], .next⟩
  | ⟨rend, vfs, engCount, .error e, evs⟩ =>
    ⟨⟨rend, vfs, engCount⟩,
      evs ++ [.emitResponse ⟨"error", none, some ("Init failed: " ++ e.debugRepr)⟩],
      .next⟩

/-- The command match of the main loop, one arm per Command variant,
ending in the events each arm performs and whether control reaches the
flush at the bottom of the loop body (continue in the mismatch arm skips
it; Quit breaks). -/
def processCmd (w : World) (st : LoopSt) : Command → StepOut
  | .init width height style pixelDensity protocol_version =>
    match protocol_version with
    | some version =>
      if version ≠ PROTOCOL_VERSION then
        ⟨st,
          [.emitResponse ⟨"error", none,
            some ("Protocol version mismatch: client=" ++ version ++ ", daemon="
              ++ PROTOCOL_VERSION)⟩], .skip⟩
      else runInit w st width height style pixelDensity
    | none => runInit w st width height style pixelDensity
  | .render center zoom bearing pitch =>
    match Renderer.render w st.rend center zoom bearing pitch with
    | (.ok image, evs) =>
      match encode_png w image with
      | .ok png_b64 =>
        ⟨st, evs ++ [.emitResponse ⟨"ok", some png_b64, none⟩], .next⟩
      | .error e =>
        ⟨st, evs ++ [.emitResponse ⟨"error", none, some e⟩], .next⟩
    | (.error e, evs) =>
      ⟨st, evs ++ [.emitResponse ⟨"error", none,
        some ("Render failed: " ++ e.debugRepr)⟩], .next⟩
  | .reload_style style =>
    match Renderer.reload_style w st.rend st.vfs style with
    | ⟨rend, vfs, .ok _, evs⟩ =>
      ⟨⟨rend, vfs, st.engCount⟩,
        evs ++ [.emitResponse ⟨"ok", none, none⟩], .next⟩
    | ⟨rend, vfs, .error e, evs⟩ =>
      ⟨⟨rend, vfs, st.engCount⟩,
        evs ++ [.emitResponse ⟨"error", none,
          some ("Reload style failed: " ++ e.debugRepr)⟩], .next⟩
  | .render_batch views =>
    ⟨st, (batchGo w st.rend views []).evs
      ++ [.emitResponse (batchGo w st.rend views []).resp], .next⟩
  | .quit =>
    ⟨⟨(Renderer.cleanup_temp_files w st.rend st.vfs).1,
      (Renderer.cleanup_temp_files w st.rend st.vfs).2.1, st.engCount⟩,
      (Renderer.cleanup_temp_files w st.rend st.vfs).2.2, .halt⟩

/-- One loop iteration body: skip blank lines, emit the decode diagnostic
and continue on a decode failure, otherwise dispatch the command. -/
def processLine (w : World) (st : LoopSt) (l : String) : StepOut :=
  if isBlankLine l then ⟨st, [], .skip⟩
  else
    match w.decode l with
    | .error e =>
      ⟨st, [.emitResponse ⟨"error", none, some ("Invalid command: " ++ e)⟩], .skip⟩
    | .ok cmd => processCmd w st cmd

/-- The read-dispatch-flush loop of main over a list of successfully read
input lines, producing the final state and the full event trace.  The
flush at the bottom of the loop body runs only when the dispatched arm
falls through (LoopCtl.next); continue paths skip it and Quit breaks. -/
def runMain (w : World) : List String → LoopSt → LoopSt × List Ev
  | [], st => (st, [])
  | l :: rest, st =>
    match processLine w st l with
    | ⟨st1, evs, .halt⟩ => (st1, .readLine l :: evs)
    | ⟨st1, evs, .next⟩ =>
      ((runMain w rest st1).1,
        .readLine l :: evs ++ Ev.flushOut :: (runMain w rest st1).2)
    | ⟨st1, evs, .skip⟩ =>
      ((runMain w rest st1).1, .readLine l :: evs ++ (runMain w rest st1).2)

/-- The state at process start: a fresh renderer record, the given
filesystem, build counter zero. -/
def initialState (vfs : VFS) : LoopSt :=
  ⟨Renderer.new, vfs, 0⟩

/-! ### Observation helpers used by the claim statements -/

def exceptOkB {ε α : Type} : Except ε α → Bool
  | .ok _ => true
  | .error _ => false

/-- A view of a batch succeeds when its geojson hook (when present), its
render call and its encoding all succeed. -/
def viewOk (w : World) (r : Renderer) (v : View) : Bool :=
  (match v.geojson with
    | some geojson => exceptOkB (Renderer.update_geojson_sources r geojson)
    | none => true) &&
  (match (Renderer.render w r v.center v.zoom v.bearing v.pitch).1 with
    | .ok image => exceptOkB (encode_png w image)
    | .error _ => false)

/-- The b64 encoding a successful view contributes to the batch payload
(empty string off the success path, unused there). -/
def viewPng (w : World) (r : Renderer) (v : View) : String :=
  match (Renderer.render w r v.center v.zoom v.bearing v.pitch).1 with
  | .ok image =>
    match encode_png w image with
    | .ok png_b64 => png_b64
    | .error _ => ""
  | .error _ => ""

/-- The responses emitted in a trace, in order. -/
def emittedOf (evs : List Ev) : List Response :=
  evs.filterMap (fun e => match e with
    | .emitResponse resp => some resp
    | _ => none)

/-- The files created in a trace: path and content pairs, in order. -/
def writtenFiles (evs : List Ev) : List (Path × String) :=
  evs.filterMap (fun e => match e with
    | .fileWrite p c => some (p, c)
    | _ => none)

/-- Remote URL test of the style resolver, in source order. -/
def isRemoteStyle (style : String) : Bool :=
  strStartsWith style "http://" || strStartsWith style "https://"
    || strStartsWith style "file://"

/-- Engine or filesystem effect events: everything except reads, emits
and flushes. -/
def engineEv : Ev → Bool
  | .readLine _ => false
  | .emitResponse _ => false
  | .flushOut => false
  | _ => true

/-- The response invariant the code maintains: status is ok or error, the
error message is present exactly on error status, and a png payload
appears only with ok status. -/
def respOK (resp : Response) : Bool :=
  (resp.status = "ok" || resp.status = "error") &&
  (resp.error.isSome = decide (resp.status = "error")) &&
  (!resp.png.isSome || decide (resp.status = "ok"))

/-- The stronger both-ways pairing asserted by the spec: png present iff
ok, error present iff error. -/
def pngIffOk (resp : Response) : Bool :=
  (resp.png.isSome = decide (resp.status = "ok")) &&
  (resp.error.isSome = decide (resp.status = "error"))

/-- Substring test on strings, on the character data. -/
def strContains (s pat : String) : Bool :=
  (List.range (s.data.length + 1)).any (fun i => charsLead pat.data (s.data.drop i))

/-- An Init command carrying a protocol version different from the
daemon constant. -/
def isMismatchInit : Command → Bool
  | .init _ _ _ _ (some version) => version ≠ PROTOCOL_VERSION
  | _ => false

/-- Lines whose dispatch reaches the flush at the bottom of the loop
body: non-blank, decodable, not Quit, and not a version-mismatched
Init. -/
def goodLine (w : World) (l : String) : Bool :=
  if isBlankLine l then false
  else
    match w.decode l with
    | .error _ => false
    | .ok .quit => false
    | .ok cmd => !isMismatchInit cmd

/-- Trace checker: pending records that a flush is owed before the next
read because the previous line was a good line; a read arriving while a
flush is owed fails the check. -/
def flushOKAux (w : World) : Bool → List Ev → Bool
  | _, [] => true
  | pending, .readLine l :: rest =>
    if pending then false else flushOKAux w (goodLine w l) rest
  | _, .flushOut :: rest => flushOKAux w false rest
  | pending, _ :: rest => flushOKAux w pending rest

def flushOK (w : World) (t : List Ev) : Bool :=
  flushOKAux w false t

/-- Trace checker for the literal spec sentence: a flush is owed after
every processed line, whatever its kind, before the next read. -/
def flushEveryAux : Bool → List Ev → Bool
  | _, [] => true
  | pending, .readLine _ :: rest =>
    if pending then false else flushEveryAux true rest
  | _, .flushOut :: rest => flushEveryAux false rest
  | pending, _ :: rest => flushEveryAux pending rest

def flushEvery (t : List Ev) : Bool :=
  flushEveryAux false t

/-- Decimal value of a digit string, used to invert Nat.repr. -/
def decodeDigits (l : List Char) : Nat :=
  l.foldl (fun a c => 10 * a + (c.toNat - 48)) 0

/-- A sequence of load_style calls (engine handle, style string) threaded
through the temp file registry and the filesystem, as successive init
and reload_style commands perform them; returns the final registry, the
final filesystem, and the concatenated events. -/
def runLoads (w : World) : List (Nat × String) → List Path → VFS →
    List Path × VFS × List Ev
  | [], tf, vfs => (tf, vfs, [])
  | (eng, sty) :: rest, tf, vfs =>
    match load_style w eng sty tf vfs with
    | ⟨_res, tf1, vfs1, evs⟩ =>
      ((runLoads w rest tf1 vfs1).1, (runLoads w rest tf1 vfs1).2.1,
        evs ++ (runLoads w rest tf1 vfs1).2.2)

/-- The inline-definition test of the style resolver (third branch not
taken, second taken). -/
def isInlineStyle (style : String) : Bool :=
  !(isRemoteStyle style) && strStartsWith style "\x7b"

/-- How many calls of a load sequence carry an inline style. -/
def inlineCount (calls : List (Nat × String)) : Nat :=
  calls.countP (fun c => isInlineStyle c.2)

/-- Events that structure the trace of the main loop: line reads and
flushes. -/
def ctrlEv : Ev → Bool
  | .readLine _ => true
  | .flushOut => true
  | _ => false

/-! ### Concrete worlds and fixtures for closed runs -/

def vfs0 : VFS := ⟨[]⟩

/-- A benign concrete world: every external call succeeds, the decoder
understands three fixed lines, and a rendered image is tagged by its
latitude argument (latitude 99 makes the engine fail, for failure
fixtures). -/
def wOk : World where
  pid := 7
  tempDir := "/tmp"
  decode := fun l =>
    if l = "init" then .ok (.init 1 1 "style.json" 1 none)
    else if l = "render" then .ok (.render (0, 0) 2 0 0)
    else if l = "quit" then .ok .quit
    else .error "expected value"
  parseUrl := fun s => some s
  fsWriteErr := fun _ _ => none
  removeOk := fun _ => true
  loadPathErr := fun _ _ => none
  renderStatic := fun _ la _ _ _ _ =>
    if la = 99 then .error (.other "Simulated engine failure") else .ok la.natAbs
  imageWrite := fun image => .ok [image]
  b64 := fun bytes => "p" ++ String.intercalate "_" (bytes.map Nat.repr)

/-- A world whose engine rejects every style load attempted by engine
instance 0 and accepts the rest: drives a first init into a load failure
followed by a successful second init. -/
def wFail : World :=
  { wOk with
    loadPathErr := fun eng _ =>
      if eng = 0 then some "Style load rejected" else none }

/-- A dispatcher state holding a ready renderer (engine handle 0). -/
def stReady : LoopSt :=
  ⟨⟨some 0, 256, 256, []⟩, vfs0, 1⟩

def vA : View := ⟨(1, 2), 3, 0, 0, none⟩

def vB : View := ⟨(3, 4), 3, 0, 0, some [("src", "data")]⟩

/-- A view whose render call fails in wOk (latitude 99). -/
def vBad : View := ⟨(0, 99), 3, 0, 0, none⟩

/-! ### General lemmas about the embedded operations -/

/-- A load_style call either leaves the registry unchanged, or succeeds
and appends exactly the path built from the registry length. -/
theorem load_style_registry (w : World) (eng : Nat) (style : String)
    (tf : List Path) (vfs : VFS) :
    ((load_style w eng style tf vfs).res = .ok () ∧
      (load_style w eng style tf vfs).temp_files = tf ++ [mkTempPath w tf.length]) ∨
    (load_style w eng style tf vfs).temp_files = tf := by
  unfold load_style
  split
  · split <;> simp
  · split
    · split
      · simp
      · split <;> simp
    · split <;> simp

/-- A failed load_style call leaves the registry unchanged. -/
theorem load_style_error_registry (w : World) (eng : Nat) (style : String)
    (tf : List Path) (vfs : VFS) (e : BoxErr)
    (h : (load_style w eng style tf vfs).res = .error e) :
    (load_style w eng style tf vfs).temp_files = tf := by
  rcases load_style_registry w eng style tf vfs with ⟨hok, _⟩ | hsame
  · rw [hok] at h; cases h
  · exact hsame

/-- C3 (amended): when init fails, the engine handle and the temp file
registry are unchanged (no broken renderer is installed as ready), but
the width and height fields are overwritten with the requested
dimensions at the start of init, before validation. -/
theorem claim_C3_init_failure_state (w : World) (r : Renderer) (vfs : VFS)
    (engCount : Nat) (width height : Nat) (style : String) (d : F64) (e : BoxErr)
    (h : (Renderer.init w r vfs engCount width height style d).res = .error e) :
    (Renderer.init w r vfs engCount width height style d).rend.renderer = r.renderer ∧
    (Renderer.init w r vfs engCount width height style d).rend.temp_files = r.temp_files ∧
    (Renderer.init w r vfs engCount width height style d).rend.width = width ∧
    (Renderer.init w r vfs engCount width height style d).rend.height = height := by
  unfold Renderer.init at h ⊢
  split at h
  · rename_i hw
    simp only [if_pos hw]
    simp
  · rename_i hw
    split at h
    · rename_i hh
      simp only [if_neg hw, if_pos hh]
      simp
    · rename_i hh
      simp only [if_neg hw, if_neg hh]
      split at h
      · rename_i e2 tf vfs1 evs heq
        have hres : (load_style w engCount style r.temp_files vfs).res = .error e2 := by
          rw [heq]
        have htf : (load_style w engCount style r.temp_files vfs).temp_files =
            r.temp_files :=
          load_style_error_registry w engCount style r.temp_files vfs e2 hres
        rw [heq] at htf
        simp_all
      · rename_i tf vfs1 evs heq
        simp at h

/-- Witness for C3 at a concrete failing init (zero width). -/
theorem claim_C3_witness :
    (Renderer.init wOk Renderer.new vfs0 0 0 256 "style.json" 1).rend.renderer =
      Renderer.new.renderer ∧
    (Renderer.init wOk Renderer.new vfs0 0 0 256 "style.json" 1).rend.temp_files =
      Renderer.new.temp_files ∧
    (Renderer.init wOk Renderer.new vfs0 0 0 256 "style.json" 1).rend.width = 0 ∧
    (Renderer.init wOk Renderer.new vfs0 0 0 256 "style.json" 1).rend.height = 256 :=
  claim_C3_init_failure_state wOk Renderer.new vfs0 0 0 256 "style.json" 1
    (.fromStr "Width must be non-zero") (by decide)

/-- Counterexample to C3 as stated: a failed init with zero width leaves
the width field changed from 512 to 0, so the configured fields are not
unchanged from before the failed init. -/
theorem claim_C3_counterexample :
    (Renderer.init wOk Renderer.new vfs0 0 0 256 "style.json" 1).res =
      .error (.fromStr "Width must be non-zero") ∧
    Renderer.new.width = 512 ∧
    (Renderer.init wOk Renderer.new vfs0 0 0 256 "style.json" 1).rend.width = 0 := by
  decide

/-- C2 (amended): render in the uninitialized state fails with the
engine error StyleNotSpecified for every view parameter tuple; the
dispatcher emits exactly one error response whose message is the literal
Render failed: StyleNotSpecified, no engine render call happens, and
the state is unchanged. -/
theorem claim_C2_render_before_init (w : World) (st : LoopSt)
    (center : F64 × F64) (zoom bearing pitch : F64)
    (h : st.rend.renderer = none) :
    Renderer.render w st.rend center zoom bearing pitch =
      (.error .styleNotSpecified, []) ∧
    processCmd w st (.render center zoom bearing pitch) =
      ⟨st, [.emitResponse ⟨"error", none,
        some "Render failed: StyleNotSpecified"⟩], .next⟩ := by
  have hr : Renderer.render w st.rend center zoom bearing pitch =
      (.error .styleNotSpecified, []) := by
    unfold Renderer.render
    rw [h]
  refine ⟨hr, ?_⟩
  have hmsg : "Render failed: " ++
      RenderingError.debugRepr RenderingError.styleNotSpecified =
      "Render failed: StyleNotSpecified" := by decide
  simp only [processCmd, hr, List.nil_append]
  rw [hmsg]

/-- Witness for C2 at a concrete view in the fresh initial state. -/
theorem claim_C2_witness :
    Renderer.render wOk (initialState vfs0).rend (0, 0) 2 0 0 =
      (.error .styleNotSpecified, []) ∧
    processCmd wOk (initialState vfs0) (.render (0, 0) 2 0 0) =
      ⟨initialState vfs0, [.emitResponse ⟨"error", none,
        some "Render failed: StyleNotSpecified"⟩], .next⟩ :=
  claim_C2_render_before_init wOk (initialState vfs0) (0, 0) 2 0 0 (by decide)

/-- Counterexample to C2 as stated: the error message emitted for a
render with no prior init is the literal Render failed:
StyleNotSpecified, which does not contain the substring required by the
spec scenario. -/
theorem claim_C2_counterexample :
    (processCmd wOk (initialState vfs0) (.render (0, 0) 2 0 0)).evs =
      [.emitResponse ⟨"error", none, some "Render failed: StyleNotSpecified"⟩] ∧
    strContains "Render failed: StyleNotSpecified" "not initialized" = false := by
  decide

/-! ### Claim C6: quit removes tracked temp files and halts the loop -/

theorem removeF_not_exists (w : World) (vfs : VFS) (p q : Path)
    (h : vfs.existsFile p = false) : (removeF w vfs q).existsFile p = false := by
  unfold removeF
  split
  · simp only [VFS.removePath, VFS.existsFile, List.any_eq_false,
      decide_eq_true_eq] at h ⊢
    intro x hx
    exact h x (List.mem_filter.mp hx).1
  · exact h

theorem removeF_self (w : World) (vfs : VFS) (p : Path)
    (h : w.removeOk p = true) : (removeF w vfs p).existsFile p = false := by
  unfold removeF
  rw [h]
  simp only [if_true, VFS.removePath, VFS.existsFile, List.any_eq_false,
    decide_eq_true_eq]
  intro x hx
  have := (List.mem_filter.mp hx).2
  simpa using this

theorem foldl_removeF_preserve (w : World) (l : List Path) (vfs : VFS) (p : Path)
    (h : vfs.existsFile p = false) :
    (l.foldl (fun acc q => removeF w acc q) vfs).existsFile p = false := by
  induction l generalizing vfs with
  | nil => exact h
  | cons q rest ih => exact ih _ (removeF_not_exists w vfs p q h)

theorem foldl_removeF_removes (w : World) (l : List Path) (vfs : VFS)
    (hok : ∀ q ∈ l, w.removeOk q = true) :
    ∀ p ∈ l, (l.foldl (fun acc q => removeF w acc q) vfs).existsFile p = false := by
  induction l generalizing vfs with
  | nil => intro p hp; cases hp
  | cons q rest ih =>
    intro p hp
    rcases List.mem_cons.mp hp with rfl | hp2
    · exact foldl_removeF_preserve w rest _ p
        (removeF_self w vfs p (hok p (List.mem_cons_self p rest)))
    · exact ih _ (fun x hx => hok x (List.mem_cons_of_mem _ hx)) p hp2

/-- Fixture: a ready state tracking one temp file that exists on disk. -/
def stTmp : LoopSt :=
  ⟨⟨some 0, 256, 256, ["/tmp/mlnative_style_7_0.json"]⟩,
    ⟨[("/tmp/mlnative_style_7_0.json", "\x7b\x7d")]⟩, 1⟩

/-- C6: the Quit command halts the loop without emitting a response, the
registry is cleared, a Quit line ends the read loop immediately, and when
every removal succeeds each previously tracked path no longer exists in
the filesystem. -/
theorem claim_C6_quit_cleanup (w : World) (st : LoopSt) :
    (processCmd w st .quit).ctl = .halt ∧
    (processCmd w st .quit).st.rend.temp_files = [] ∧
    emittedOf (processCmd w st .quit).evs = [] ∧
    (∀ l rest st0, (processLine w st0 l).ctl = .halt →
      runMain w (l :: rest) st0 =
        ((processLine w st0 l).st, .readLine l :: (processLine w st0 l).evs)) ∧
    ((∀ p ∈ st.rend.temp_files, w.removeOk p = true) →
      ∀ p ∈ st.rend.temp_files,
        (processCmd w st .quit).st.vfs.existsFile p = false) := by
  refine ⟨rfl, rfl, ?_, ?_, ?_⟩
  · simp only [processCmd, Renderer.cleanup_temp_files, emittedOf,
      List.filterMap_eq_nil_iff, List.mem_map]
    rintro a ⟨p, _, rfl⟩
    rfl
  · intro l rest st0 hhalt
    rcases hpl : processLine w st0 l with ⟨st1, evs, ctl⟩
    rw [hpl] at hhalt
    simp only at hhalt
    subst hhalt
    simp [runMain, hpl]
  · intro hok p hp
    simp only [processCmd, Renderer.cleanup_temp_files]
    exact foldl_removeF_removes w st.rend.temp_files st.vfs hok p hp

/-- Witness for C6: quitting the fixture state removes its tracked file
from the filesystem. -/
theorem claim_C6_witness :
    (processCmd wOk stTmp .quit).st.vfs.existsFile
      "/tmp/mlnative_style_7_0.json" = false :=
  (claim_C6_quit_cleanup wOk stTmp).2.2.2.2 (by decide)
    "/tmp/mlnative_style_7_0.json" (by decide)

/-! ### Claim C5: style classification by prefix -/

/-- C5: classification is prefix-based in priority order.  Remote URL
schemes create no temporary file and interact with the engine only
through the URL loader (called exactly when the URL parses); an inline
definition writes the full style string verbatim to the path built from
the registry length and loads the engine from that path; any other string
goes straight to the engine path loader with no temporary file. -/
theorem claim_C5_style_classification (w : World) (eng : Nat) (style : String)
    (tf : List Path) (vfs : VFS) :
    (isRemoteStyle style = true →
      (load_style w eng style tf vfs).temp_files = tf ∧
      (load_style w eng style tf vfs).vfs = vfs ∧
      writtenFiles (load_style w eng style tf vfs).evs = [] ∧
      (∀ eng2 p, Ev.engineLoadPath eng2 p ∉ (load_style w eng style tf vfs).evs) ∧
      (∀ url, w.parseUrl style = some url →
        (load_style w eng style tf vfs).evs = [.engineLoadUrl eng url])) ∧
    (isRemoteStyle style = false → strStartsWith style "\x7b" = true →
      (∀ eng2 url, Ev.engineLoadUrl eng2 url ∉ (load_style w eng style tf vfs).evs) ∧
      (w.fsWriteErr (mkTempPath w tf.length) style = none →
        writtenFiles (load_style w eng style tf vfs).evs =
          [(mkTempPath w tf.length, style)] ∧
        (load_style w eng style tf vfs).vfs =
          vfs.writeFile (mkTempPath w tf.length) style ∧
        Ev.engineLoadPath eng (mkTempPath w tf.length) ∈
          (load_style w eng style tf vfs).evs) ∧
      (∀ e, w.fsWriteErr (mkTempPath w tf.length) style = some e →
        writtenFiles (load_style w eng style tf vfs).evs = [] ∧
        (load_style w eng style tf vfs).vfs = vfs)) ∧
    (isRemoteStyle style = false → strStartsWith style "\x7b" = false →
      (load_style w eng style tf vfs).temp_files = tf ∧
      (load_style w eng style tf vfs).vfs = vfs ∧
      writtenFiles (load_style w eng style tf vfs).evs = [] ∧
      (load_style w eng style tf vfs).evs = [.engineLoadPath eng style]) := by
  refine ⟨?_, ?_, ?_⟩
  · intro h
    simp only [isRemoteStyle] at h
    unfold load_style
    simp only [h, if_true]
    rcases hp : w.parseUrl style with _ | url
    · simp [writtenFiles]
    · simp [writtenFiles]
  · intro h hb
    simp only [isRemoteStyle] at h
    unfold load_style
    simp only [h, hb, if_false, if_true, Bool.false_eq_true]
    rcases hw : w.fsWriteErr (mkTempPath w tf.length) style with _ | e
    · rcases hl : w.loadPathErr eng (mkTempPath w tf.length) with _ | e2
      · simp [writtenFiles]
      · simp [writtenFiles]
    · simp [writtenFiles]
  · intro h hb
    simp only [isRemoteStyle] at h
    unfold load_style
    simp only [h, hb, if_false, Bool.false_eq_true]
    rcases hl : w.loadPathErr eng style with _ | e
    · simp [writtenFiles]
    · simp [writtenFiles]

/-- Witness for C5: the three branches at concrete styles in wOk. -/
theorem claim_C5_witness :
    writtenFiles (load_style wOk 0 "http://x" [] vfs0).evs = [] ∧
    writtenFiles (load_style wOk 1 "\x7bv8\x7d" [] vfs0).evs =
      [(mkTempPath wOk ([] : List Path).length, "\x7bv8\x7d")] ∧
    (load_style wOk 2 "plain.json" [] vfs0).evs = [.engineLoadPath 2 "plain.json"] :=
  ⟨((claim_C5_style_classification wOk 0 "http://x" [] vfs0).1 (by decide)).2.2.1,
    ((((claim_C5_style_classification wOk 1 "\x7bv8\x7d" [] vfs0).2.1 (by decide)
      (by decide)).2.1) (by decide)).1,
    ((claim_C5_style_classification wOk 2 "plain.json" [] vfs0).2.2 (by decide)
      (by decide)).2.2.2⟩

/-! ### Claims C7 and C1: engine call arguments and batch semantics -/

theorem geoStep_ok (r : Renderer) (view : View) : geoStep r view = .ok () := by
  unfold geoStep Renderer.update_geojson_sources
  cases view.geojson <;> rfl

/-- Every event of a render call is the engine render call with the
center components swapped: latitude center.2 first, longitude center.1
second. -/
theorem render_events (w : World) (r : Renderer) (center : F64 × F64)
    (zoom bearing pitch : F64) :
    ∀ ev ∈ (Renderer.render w r center zoom bearing pitch).2,
      ∃ eng, r.renderer = some eng ∧
        ev = .engineRender eng center.2 center.1 zoom bearing pitch := by
  unfold Renderer.render
  rcases h : r.renderer with _ | eng
  · intro ev hev
    simp at hev
  · intro ev hev
    simp at hev
    exact ⟨eng, rfl, hev⟩

/-- Every event of the batch loop comes from the render call of one of
its views. -/
theorem batch_events (w : World) (r : Renderer) :
    ∀ (vs : List View) (pngs : List String), ∀ ev ∈ (batchGo w r vs pngs).evs,
      ∃ v ∈ vs, ev ∈ (Renderer.render w r v.center v.zoom v.bearing v.pitch).2 := by
  intro vs
  induction vs with
  | nil =>
    intro pngs ev hev
    simp [batchGo] at hev
  | cons v rest ih =>
    intro pngs ev hev
    simp only [batchGo, geoStep_ok] at hev
    rcases hrr : Renderer.render w r v.center v.zoom v.bearing v.pitch with ⟨res, revs⟩
    simp only [hrr] at hev
    rcases res with e | image
    · simp only at hev
      exact ⟨v, List.mem_cons_self v rest, by rw [hrr]; simpa using hev⟩
    · rcases he : encode_png w image with e2 | png
      · simp only [he] at hev
        exact ⟨v, List.mem_cons_self v rest, by rw [hrr]; simpa using hev⟩
      · simp only [he] at hev
        rcases List.mem_append.mp hev with hm | hm
        · exact ⟨v, List.mem_cons_self v rest, by rw [hrr]; simpa using hm⟩
        · obtain ⟨v2, hv2, hmem⟩ := ih (pngs ++ [png]) ev hm
          exact ⟨v2, List.mem_cons_of_mem _ hv2, hmem⟩

/-- C7: for the render command and for every batch view, any engine
render call receives the latitude (wire center[1]) as its first argument
and the longitude (wire center[0]) as its second. -/
theorem claim_C7_center_swap (w : World) (st : LoopSt) (center : F64 × F64)
    (zoom bearing pitch : F64) (views : List View) :
    (∀ ev ∈ (processCmd w st (.render center zoom bearing pitch)).evs,
      ∀ eng la lo zz bb pp, ev = Ev.engineRender eng la lo zz bb pp →
        la = center.2 ∧ lo = center.1 ∧ zz = zoom ∧ bb = bearing ∧ pp = pitch) ∧
    (∀ ev ∈ (processCmd w st (.render_batch views)).evs,
      ∀ eng la lo zz bb pp, ev = Ev.engineRender eng la lo zz bb pp →
        ∃ v ∈ views, la = v.center.2 ∧ lo = v.center.1 ∧ zz = v.zoom ∧
          bb = v.bearing ∧ pp = v.pitch) := by
  constructor
  · intro ev hev eng la lo zz bb pp hev2
    subst hev2
    simp only [processCmd] at hev
    rcases hrr : Renderer.render w st.rend center zoom bearing pitch with ⟨res, revs⟩
    simp only [hrr] at hev
    have hrev : ∀ ev2 ∈ revs, ∃ eng2, st.rend.renderer = some eng2 ∧
        ev2 = Ev.engineRender eng2 center.2 center.1 zoom bearing pitch := by
      intro ev2 h2
      exact render_events w st.rend center zoom bearing pitch ev2 (by rw [hrr]; exact h2)
    rcases res with e | image
    · simp only at hev
      rcases List.mem_append.mp hev with hm | hm
      · obtain ⟨eng2, _, heq⟩ := hrev _ hm
        simp only [Ev.engineRender.injEq] at heq
        exact ⟨heq.2.1, heq.2.2.1, heq.2.2.2.1, heq.2.2.2.2.1, heq.2.2.2.2.2⟩
      · simp at hm
    · rcases he : encode_png w image with e2 | png <;> simp only [he] at hev <;>
        rcases List.mem_append.mp hev with hm | hm
      · obtain ⟨eng2, _, heq⟩ := hrev _ hm
        simp only [Ev.engineRender.injEq] at heq
        exact ⟨heq.2.1, heq.2.2.1, heq.2.2.2.1, heq.2.2.2.2.1, heq.2.2.2.2.2⟩
      · simp at hm
      · obtain ⟨eng2, _, heq⟩ := hrev _ hm
        simp only [Ev.engineRender.injEq] at heq
        exact ⟨heq.2.1, heq.2.2.1, heq.2.2.2.1, heq.2.2.2.2.1, heq.2.2.2.2.2⟩
      · simp at hm
  · intro ev hev eng la lo zz bb pp hev2
    subst hev2
    simp only [processCmd] at hev
    rcases List.mem_append.mp hev with hm | hm
    · obtain ⟨v, hv, hmem⟩ := batch_events w st.rend views [] _ hm
      obtain ⟨eng2, _, heq⟩ :=
        render_events w st.rend v.center v.zoom v.bearing v.pitch _ hmem
      simp only [Ev.engineRender.injEq] at heq
      exact ⟨v, hv, heq.2.1, heq.2.2.1, heq.2.2.2.1, heq.2.2.2.2.1, heq.2.2.2.2.2⟩
    · simp at hm

/-- Witness for C7: a concrete render call and a concrete batch view,
both with swapped center components on the engine call. -/
theorem claim_C7_witness :
    ((7 : F64) = ((5 : F64), (7 : F64)).2 ∧ (5 : F64) = ((5 : F64), (7 : F64)).1 ∧
      (2 : F64) = 2 ∧ (0 : F64) = 0 ∧ (0 : F64) = 0) ∧
    (∃ v ∈ [vA], (2 : F64) = v.center.2 ∧ (1 : F64) = v.center.1 ∧
      (3 : F64) = v.zoom ∧ (0 : F64) = v.bearing ∧ (0 : F64) = v.pitch) :=
  ⟨(claim_C7_center_swap wOk stReady (5, 7) 2 0 0 []).1
      (Ev.engineRender 0 7 5 2 0 0) (by decide) 0 7 5 2 0 0 rfl,
    (claim_C7_center_swap wOk stReady (0, 0) 0 0 0 [vA]).2
      (Ev.engineRender 0 2 1 3 0 0) (by decide) 0 2 1 3 0 0 rfl⟩

/-- When every view of the list succeeds the batch loop returns ok with
the accumulated encodings joined by commas, in order. -/
theorem batch_allOk_resp (w : World) (r : Renderer) :
    ∀ (vs : List View) (pngs : List String), (∀ v ∈ vs, viewOk w r v = true) →
      (batchGo w r vs pngs).resp =
        ⟨"ok", some (String.intercalate "," (pngs ++ vs.map (viewPng w r))), none⟩ := by
  intro vs
  induction vs with
  | nil =>
    intro pngs h
    simp [batchGo]
  | cons v rest ih =>
    intro pngs h
    have hv := h v (List.mem_cons_self v rest)
    unfold viewOk at hv
    rcases hrr : Renderer.render w r v.center v.zoom v.bearing v.pitch with ⟨res, revs⟩
    simp only [hrr] at hv
    rcases res with e | image
    · simp at hv
    · rcases he : encode_png w image with e2 | png
      · simp only [he, exceptOkB] at hv
        simp at hv
      · have hpng : viewPng w r v = png := by
          unfold viewPng
          simp only [hrr, he]
        simp only [batchGo, geoStep_ok, hrr, he]
        rw [ih (pngs ++ [png]) (fun x hx => h x (List.mem_cons_of_mem _ hx))]
        simp [hpng, List.append_assoc]

/-- The first failing view aborts the batch: the result is the same as if
the later views were absent, with an error response and no payload. -/
theorem batch_firstFail (w : World) (r : Renderer) :
    ∀ (pre : List View) (vk : View) (post : List View) (pngs : List String),
      (∀ v ∈ pre, viewOk w r v = true) → viewOk w r vk = false →
      batchGo w r (pre ++ vk :: post) pngs = batchGo w r (pre ++ [vk]) pngs ∧
      (batchGo w r (pre ++ vk :: post) pngs).resp.status = "error" ∧
      (batchGo w r (pre ++ vk :: post) pngs).resp.png = none := by
  intro pre
  induction pre with
  | nil =>
    intro vk post pngs _ hk
    unfold viewOk at hk
    have hgeo : (match vk.geojson with
        | some geojson => exceptOkB (Renderer.update_geojson_sources r geojson)
        | none => true) = true := by
      cases vk.geojson <;> rfl
    rw [hgeo] at hk
    simp only [Bool.true_and] at hk
    rcases hrr : Renderer.render w r vk.center vk.zoom vk.bearing vk.pitch with ⟨res, revs⟩
    simp only [hrr] at hk
    rcases res with e | image
    · refine ⟨?_, ?_, ?_⟩ <;>
        simp only [List.nil_append, batchGo, geoStep_ok, hrr]
    · rcases he : encode_png w image with e2 | png
      · refine ⟨?_, ?_, ?_⟩ <;>
          simp only [List.nil_append, batchGo, geoStep_ok, hrr, he]
      · simp only [he, exceptOkB] at hk
        simp at hk
  | cons v pre' ih =>
    intro vk post pngs hpre hk
    have hv := hpre v (List.mem_cons_self v pre')
    unfold viewOk at hv
    rcases hrr : Renderer.render w r v.center v.zoom v.bearing v.pitch with ⟨res, revs⟩
    simp only [hrr] at hv
    rcases res with e | image
    · simp at hv
    · rcases he : encode_png w image with e2 | png
      · simp only [he, exceptOkB] at hv
        simp at hv
      · have ihh := ih vk post (pngs ++ [png])
          (fun x hx => hpre x (List.mem_cons_of_mem _ hx)) hk
        refine ⟨?_, ?_, ?_⟩ <;>
          simp only [List.cons_append, batchGo, geoStep_ok, hrr, he, List.append_eq]
        · rw [ihh.1]
        · exact ihh.2.1
        · exact ihh.2.2

/-- The batch loop itself emits nothing; its events are engine calls. -/
theorem batch_no_emit (w : World) (r : Renderer) (vs : List View)
    (pngs : List String) : emittedOf (batchGo w r vs pngs).evs = [] := by
  unfold emittedOf
  rw [List.filterMap_eq_nil_iff]
  intro ev hev
  obtain ⟨v, _, hmem⟩ := batch_events w r vs pngs ev hev
  obtain ⟨eng, _, heq⟩ :=
    render_events w r v.center v.zoom v.bearing v.pitch ev hmem
  subst heq
  rfl

/-- C1: a RenderBatch command leaves the state unchanged and emits
exactly one response; when every view succeeds it is the ok response
whose payload joins the per-view encodings with commas in input order,
and when a first view fails the later views are not processed (the
result equals the run without them) and the single response is an error
with no payload. -/
theorem claim_C1_batch_semantics (w : World) (st : LoopSt) (views : List View) :
    (processCmd w st (.render_batch views)).st = st ∧
    (processCmd w st (.render_batch views)).ctl = .next ∧
    emittedOf (processCmd w st (.render_batch views)).evs =
      [(batchGo w st.rend views []).resp] ∧
    ((∀ v ∈ views, viewOk w st.rend v = true) →
      (batchGo w st.rend views []).resp =
        ⟨"ok", some (String.intercalate "," (views.map (viewPng w st.rend))), none⟩) ∧
    (∀ pre vk post, views = pre ++ vk :: post →
      (∀ v ∈ pre, viewOk w st.rend v = true) →
      viewOk w st.rend vk = false →
      batchGo w st.rend views [] = batchGo w st.rend (pre ++ [vk]) [] ∧
      (batchGo w st.rend views []).resp.status = "error" ∧
      (batchGo w st.rend views []).resp.png = none) := by
  refine ⟨rfl, rfl, ?_, ?_, ?_⟩
  · have h1 := batch_no_emit w st.rend views []
    unfold emittedOf at h1 ⊢
    simp only [processCmd, List.filterMap_append, h1]
    rfl
  · intro h
    have h2 := batch_allOk_resp w st.rend views [] h
    simpa using h2
  · intro pre vk post hv hpre hk
    subst hv
    exact batch_firstFail w st.rend pre vk post [] hpre hk

/-- Witness for C1: a two-view batch that fully succeeds, and a batch
whose middle view fails, at concrete views in a ready state. -/
theorem claim_C1_witness :
    (batchGo wOk stReady.rend [vA, vB] []).resp =
      ⟨"ok", some (String.intercalate ","
        ([vA, vB].map (viewPng wOk stReady.rend))), none⟩ ∧
    (batchGo wOk stReady.rend ([vA] ++ vBad :: [vB]) [] =
      batchGo wOk stReady.rend ([vA] ++ [vBad]) [] ∧
      (batchGo wOk stReady.rend ([vA] ++ vBad :: [vB]) []).resp.status = "error" ∧
      (batchGo wOk stReady.rend ([vA] ++ vBad :: [vB]) []).resp.png = none) :=
  ⟨(claim_C1_batch_semantics wOk stReady [vA, vB]).2.2.2.1 (by decide),
    (claim_C1_batch_semantics wOk stReady ([vA] ++ vBad :: [vB])).2.2.2.2
      [vA] vBad [vB] rfl (by decide) (by decide)⟩

/-- C10: send_response never aborts; on serializer failure it prints the
fixed JSON error line, otherwise the serialized record, one line either
way. -/
theorem claim_C10_send_response_total (serialize : Response → Option String)
    (resp : Response) :
    (serialize resp = none →
      send_response serialize resp =
        "\x7b\"status\":\"error\",\"error\":\"JSON encode failed\"\x7d") ∧
    (∀ s, serialize resp = some s → send_response serialize resp = s) := by
  constructor
  · intro h
    simp [send_response, h]
  · intro s h
    simp [send_response, h]

/-- Witness for C10: a failing serializer falls back to the fixed line, a
successful one prints its output. -/
theorem claim_C10_witness :
    send_response (fun _ => none) ⟨"ok", none, none⟩ =
      "\x7b\"status\":\"error\",\"error\":\"JSON encode failed\"\x7d" ∧
    send_response (fun _ => some "x") ⟨"ok", none, none⟩ = "x" :=
  ⟨(claim_C10_send_response_total (fun _ => none) ⟨"ok", none, none⟩).1 rfl,
    (claim_C10_send_response_total (fun _ => some "x") ⟨"ok", none, none⟩).2 "x" rfl⟩

/-! ### Claim C9: every emitted response pairs status with its payload -/

theorem respOK_err (msg : String) : respOK ⟨"error", none, some msg⟩ = true :=
  rfl

theorem respOK_ok_png (png : String) : respOK ⟨"ok", some png, none⟩ = true :=
  rfl

theorem respOK_ok_plain : respOK ⟨"ok", none, none⟩ = true :=
  rfl

theorem load_style_evs_engine (w : World) (eng : Nat) (style : String)
    (tf : List Path) (vfs : VFS) :
    ∀ e ∈ (load_style w eng style tf vfs).evs, engineEv e = true := by
  intro e he
  unfold load_style at he
  split at he
  · split at he
    · simp at he
    · simp at he
      subst he
      rfl
  · split at he
    · split at he
      · simp at he
      · split at he <;> (simp at he; rcases he with rfl | rfl <;> rfl)
    · split at he <;> (simp at he; subst he; rfl)

theorem init_evs_engine (w : World) (r : Renderer) (vfs : VFS) (ec : Nat)
    (width height : Nat) (style : String) (d : F64) :
    ∀ e ∈ (Renderer.init w r vfs ec width height style d).evs, engineEv e = true := by
  intro e he
  unfold Renderer.init at he
  split at he
  · simp at he
  · split at he
    · simp at he
    · split at he
      · rename_i e2 tf vfs1 evs heq
        simp only [List.mem_cons] at he
        rcases he with rfl | he
        · rfl
        · exact load_style_evs_engine w ec style r.temp_files vfs e (by rw [heq]; exact he)
      · rename_i tf vfs1 evs heq
        simp only [List.mem_cons] at he
        rcases he with rfl | he
        · rfl
        · exact load_style_evs_engine w ec style r.temp_files vfs e (by rw [heq]; exact he)

theorem reload_evs_engine (w : World) (r : Renderer) (vfs : VFS) (style : String) :
    ∀ e ∈ (Renderer.reload_style w r vfs style).evs, engineEv e = true := by
  intro e he
  unfold Renderer.reload_style at he
  split at he
  · simp at he
  · rename_i eng heq
    exact load_style_evs_engine w eng style r.temp_files vfs e he

theorem render_evs_engine (w : World) (r : Renderer) (center : F64 × F64)
    (zoom bearing pitch : F64) :
    ∀ e ∈ (Renderer.render w r center zoom bearing pitch).2, engineEv e = true := by
  intro e he
  obtain ⟨eng, _, rfl⟩ := render_events w r center zoom bearing pitch e he
  rfl

theorem batch_evs_engine (w : World) (r : Renderer) (vs : List View)
    (pngs : List String) :
    ∀ e ∈ (batchGo w r vs pngs).evs, engineEv e = true := by
  intro e he
  obtain ⟨v, _, hmem⟩ := batch_events w r vs pngs e he
  exact render_evs_engine w r v.center v.zoom v.bearing v.pitch e hmem

theorem cleanup_evs_engine (w : World) (r : Renderer) (vfs : VFS) :
    ∀ e ∈ (Renderer.cleanup_temp_files w r vfs).2.2, engineEv e = true := by
  intro e he
  unfold Renderer.cleanup_temp_files at he
  simp only [List.mem_map] at he
  obtain ⟨p, _, rfl⟩ := he
  rfl

/-- The response invariant holds of the single response the batch loop
labels its outcome with. -/
theorem batch_resp_respOK (w : World) (r : Renderer) :
    ∀ (vs : List View) (pngs : List String),
      respOK (batchGo w r vs pngs).resp = true := by
  intro vs
  induction vs with
  | nil =>
    intro pngs
    exact respOK_ok_png _
  | cons v rest ih =>
    intro pngs
    simp only [batchGo, geoStep_ok]
    rcases hrr : Renderer.render w r v.center v.zoom v.bearing v.pitch with ⟨res, revs⟩
    rcases res with e | image
    · exact respOK_err _
    · rcases he : encode_png w image with e2 | png
      · simp only [he]
        exact respOK_err _
      · simp only [he]
        exact ih (pngs ++ [png])

/-- Every event of one dispatched command is an engine or filesystem
effect, or an emitted response satisfying the response invariant. -/
theorem processCmd_evs (w : World) (st : LoopSt) (cmd : Command) :
    ∀ e ∈ (processCmd w st cmd).evs,
      engineEv e = true ∨ ∃ resp, e = Ev.emitResponse resp ∧ respOK resp = true := by
  intro e he
  have hrun : ∀ a b c d2,
      e ∈ (runInit w st a b c d2).evs →
      engineEv e = true ∨ ∃ resp, e = Ev.emitResponse resp ∧ respOK resp = true := by
    intro a b c d2 he2
    unfold runInit at he2
    split at he2 <;> rename_i rend vfs ec u evs heq <;>
      rcases List.mem_append.mp he2 with hm | hm
    · exact Or.inl (init_evs_engine w st.rend st.vfs st.engCount a b c d2 e
        (by rw [heq]; exact hm))
    · simp at hm
      exact Or.inr ⟨_, hm, respOK_ok_plain⟩
    · exact Or.inl (init_evs_engine w st.rend st.vfs st.engCount a b c d2 e
        (by rw [heq]; exact hm))
    · simp at hm
      exact Or.inr ⟨_, hm, respOK_err _⟩
  cases cmd with
  | init width height style d pv =>
    rcases pv with _ | version
    · simp only [processCmd] at he
      exact hrun _ _ _ _ he
    · simp only [processCmd] at he
      by_cases hv : version = PROTOCOL_VERSION
      · rw [if_neg (by simp [hv])] at he
        exact hrun _ _ _ _ he
      · rw [if_pos (by simp [hv])] at he
        simp at he
        exact Or.inr ⟨_, he, respOK_err _⟩
  | render center zoom bearing pitch =>
    simp only [processCmd] at he
    rcases hrr : Renderer.render w st.rend center zoom bearing pitch with ⟨res, revs⟩
    simp only [hrr] at he
    rcases res with e2 | image
    · simp only at he
      rcases List.mem_append.mp he with hm | hm
      · exact Or.inl (render_evs_engine w st.rend center zoom bearing pitch e
          (by rw [hrr]; exact hm))
      · simp at hm
        exact Or.inr ⟨_, hm, respOK_err _⟩
    · rcases he2 : encode_png w image with err | png <;> simp only [he2] at he <;>
        rcases List.mem_append.mp he with hm | hm
      · exact Or.inl (render_evs_engine w st.rend center zoom bearing pitch e
          (by rw [hrr]; exact hm))
      · simp at hm
        exact Or.inr ⟨_, hm, respOK_err _⟩
      · exact Or.inl (render_evs_engine w st.rend center zoom bearing pitch e
          (by rw [hrr]; exact hm))
      · simp at hm
        exact Or.inr ⟨_, hm, respOK_ok_png _⟩
  | reload_style style =>
    simp only [processCmd] at he
    split at he <;> rename_i rend vfs uo evs heq <;>
      rcases List.mem_append.mp he with hm | hm
    · exact Or.inl (reload_evs_engine w st.rend st.vfs style e (by rw [heq]; exact hm))
    · simp at hm
      exact Or.inr ⟨_, hm, respOK_ok_plain⟩
    · exact Or.inl (reload_evs_engine w st.rend st.vfs style e (by rw [heq]; exact hm))
    · simp at hm
      exact Or.inr ⟨_, hm, respOK_err _⟩
  | render_batch views =>
    simp only [processCmd] at he
    rcases List.mem_append.mp he with hm | hm
    · exact Or.inl (batch_evs_engine w st.rend views [] e hm)
    · simp at hm
      exact Or.inr ⟨_, hm, batch_resp_respOK w st.rend views []⟩
  | quit =>
    simp only [processCmd] at he
    exact Or.inl (cleanup_evs_engine w st.rend st.vfs e he)

/-- Every event of one processed line is an engine or filesystem effect,
or an emitted response satisfying the response invariant. -/
theorem processLine_evs (w : World) (st : LoopSt) (l : String) :
    ∀ e ∈ (processLine w st l).evs,
      engineEv e = true ∨ ∃ resp, e = Ev.emitResponse resp ∧ respOK resp = true := by
  intro e he
  unfold processLine at he
  split at he
  · simp at he
  · split at he
    · simp at he
      exact Or.inr ⟨_, he, respOK_err _⟩
    · exact processCmd_evs w st _ e he

/-- C9: every response emitted during any run satisfies the pairing the
code maintains: status is ok or error, the error message is present
exactly on error status, and a png payload appears only with ok
status. -/
theorem claim_C9_response_exclusivity (w : World) (lines : List String)
    (st : LoopSt) (resp : Response)
    (h : Ev.emitResponse resp ∈ (runMain w lines st).2) :
    respOK resp = true := by
  induction lines generalizing st with
  | nil => simp [runMain] at h
  | cons l rest ih =>
    rcases hpl : processLine w st l with ⟨st1, evs, ctl⟩
    have hevs : ∀ e ∈ evs,
        engineEv e = true ∨ ∃ r2, e = Ev.emitResponse r2 ∧ respOK r2 = true := by
      intro e hee
      exact processLine_evs w st l e (by rw [hpl]; exact hee)
    have hemit : Ev.emitResponse resp ∈ evs → respOK resp = true := by
      intro hm
      rcases hevs _ hm with heng | ⟨r2, heq, hok⟩
      · simp [engineEv] at heng
      · simp only [Ev.emitResponse.injEq] at heq
        rw [heq]
        exact hok
    cases ctl with
    | halt =>
      simp only [runMain, hpl] at h
      simp only [List.mem_cons] at h
      rcases h with h | h
      · cases h
      · exact hemit h
    | next =>
      simp only [runMain, hpl] at h
      rcases List.mem_cons.mp h with h | h
      · cases h
      · rcases List.mem_append.mp h with h | h
        · exact hemit h
        · rcases List.mem_cons.mp h with h | h
          · cases h
          · exact ih st1 h
    | skip =>
      simp only [runMain, hpl] at h
      rcases List.mem_cons.mp h with h | h
      · cases h
      · rcases List.mem_append.mp h with h | h
        · exact hemit h
        · exact ih st1 h

/-- Witness for C9 at the ok response of a successful init line. -/
theorem claim_C9_witness : respOK ⟨"ok", none, none⟩ = true :=
  claim_C9_response_exclusivity wOk ["init"] (initialState vfs0)
    ⟨"ok", none, none⟩ (by decide)

/-- Counterexample to C9 as stated: the response of a successful init has
status ok and no png payload, so the png field is not present exactly
when the status is ok. -/
theorem claim_C9_counterexample :
    Ev.emitResponse ⟨"ok", none, none⟩ ∈
      (runMain wOk ["init"] (initialState vfs0)).2 ∧
    pngIffOk ⟨"ok", none, none⟩ = false := by
  decide

/-! ### Claim C8: flush discipline of the dispatcher loop -/

theorem processLine_no_ctrl (w : World) (st : LoopSt) (l : String) :
    ∀ e ∈ (processLine w st l).evs, ctrlEv e = false := by
  intro e he
  rcases processLine_evs w st l e he with heng | ⟨r2, rfl, _⟩
  · cases e <;> first | rfl | exact absurd heng (by simp [engineEv])
  · rfl

theorem flushOKAux_append (w : World) (evs rest : List Ev) (pending : Bool)
    (h : ∀ e ∈ evs, ctrlEv e = false) :
    flushOKAux w pending (evs ++ rest) = flushOKAux w pending rest := by
  induction evs with
  | nil => rfl
  | cons e es ih =>
    have he := h e (List.mem_cons_self e es)
    have ih2 := ih (fun x hx => h x (List.mem_cons_of_mem _ hx))
    cases e <;> first
      | (simp only [List.cons_append, flushOKAux]; exact ih2)
      | exact absurd he (by simp [ctrlEv])

theorem runInit_ctl (w : World) (st : LoopSt) (a b : Nat) (c : String) (d : F64) :
    (runInit w st a b c d).ctl = .next := by
  unfold runInit
  split <;> rfl

/-- A line reaches the flush at the bottom of the loop body exactly when
it is a good line: non-blank, decodable, not Quit, not a mismatched
Init. -/
theorem processLine_ctl_next_iff (w : World) (st : LoopSt) (l : String) :
    ((processLine w st l).ctl = .next) ↔ goodLine w l = true := by
  by_cases hb : isBlankLine l = true
  · simp [processLine, goodLine, hb]
  · rcases hd : w.decode l with e | cmd
    · simp [processLine, goodLine, hb, hd]
    · cases cmd with
      | init width height style d pv =>
        rcases pv with _ | version
        · simp [processLine, goodLine, hb, hd, processCmd, isMismatchInit,
            runInit_ctl]
        · by_cases hv : version = PROTOCOL_VERSION
          · simp [processLine, goodLine, hb, hd, processCmd, isMismatchInit,
              runInit_ctl, hv]
          · simp [processLine, goodLine, hb, hd, processCmd, isMismatchInit, hv]
      | reload_style style =>
        rcases hro : Renderer.reload_style w st.rend st.vfs style with ⟨rend, vfs2, res, evs⟩
        rcases res with e2 | u <;>
          simp [processLine, goodLine, hb, hd, processCmd, isMismatchInit, hro]
      | render center zoom bearing pitch =>
        rcases hrr : Renderer.render w st.rend center zoom bearing pitch with ⟨res, revs⟩
        rcases res with e2 | image
        · simp [processLine, goodLine, hb, hd, processCmd, isMismatchInit, hrr]
        · rcases he : encode_png w image with err | png <;>
            simp [processLine, goodLine, hb, hd, processCmd, isMismatchInit, hrr, he]
      | render_batch views =>
        simp [processLine, goodLine, hb, hd, processCmd, isMismatchInit]
      | quit =>
        simp [processLine, goodLine, hb, hd, processCmd]

/-- C8 (amended): in every run, once a good line (non-blank, decodable,
not Quit, not a mismatched Init) has been dispatched, a flush occurs
before the next line is read.  Blank lines, undecodable lines and
protocol-mismatch responses skip the explicit flush via continue, and
the Quit line breaks out. -/
theorem claim_C8_flush_after_dispatch (w : World) (lines : List String)
    (st : LoopSt) : flushOK w (runMain w lines st).2 = true := by
  unfold flushOK
  induction lines generalizing st with
  | nil => rfl
  | cons l rest ih =>
    rcases hpl : processLine w st l with ⟨st1, evs, ctl⟩
    have hnc : ∀ e ∈ evs, ctrlEv e = false := by
      intro e hee
      exact processLine_no_ctrl w st l e (by rw [hpl]; exact hee)
    have hgood := processLine_ctl_next_iff w st l
    rw [hpl] at hgood
    cases ctl with
    | halt =>
      have hg : goodLine w l = false := by
        by_cases hgl : goodLine w l = true
        · exact absurd (hgood.mpr hgl) (by simp)
        · simpa using hgl
      simp only [runMain, hpl, flushOKAux, Bool.false_eq_true, if_false]
      rw [hg]
      rw [← List.append_nil evs, flushOKAux_append w evs [] false hnc]
      rfl
    | next =>
      have hg : goodLine w l = true := hgood.mp rfl
      simp only [runMain, hpl, flushOKAux, Bool.false_eq_true, if_false,
        List.append_eq]
      rw [hg, flushOKAux_append w evs _ true hnc]
      simp only [flushOKAux]
      exact ih st1
    | skip =>
      have hg : goodLine w l = false := by
        by_cases hgl : goodLine w l = true
        · exact absurd (hgood.mpr hgl) (by simp)
        · simpa using hgl
      simp only [runMain, hpl, flushOKAux, Bool.false_eq_true, if_false,
        List.append_eq]
      rw [hg, flushOKAux_append w evs _ false hnc]
      exact ih st1

/-- Counterexample to C8 as stated: a decode-failure line emits a
response and continues without flushing, so the next read happens with no
flush in between; the literal per-line flush guarantee fails on this
trace. -/
theorem claim_C8_counterexample :
    flushEvery (runMain wOk ["oops", "quit"] (initialState vfs0)).2 = false := by
  decide

/-! ### Claim C4: inline temp file paths within one run -/

theorem toDigitsCore_append (fuel n : Nat) (ds : List Char) :
    Nat.toDigitsCore 10 fuel n ds = Nat.toDigitsCore 10 fuel n [] ++ ds := by
  induction fuel generalizing n ds with
  | zero => rfl
  | succ f ih =>
    simp only [Nat.toDigitsCore]
    split
    · rfl
    · rw [ih (n / 10) (Nat.digitChar (n % 10) :: ds),
        ih (n / 10) [Nat.digitChar (n % 10)], List.append_assoc]
      rfl

theorem toDigitsCore_fuel (n : Nat) :
    ∀ (fuel : Nat) (ds : List Char), n < fuel →
      Nat.toDigitsCore 10 fuel n ds = Nat.toDigitsCore 10 (n + 1) n ds := by
  induction n using Nat.strong_induction_on with
  | _ n ih =>
    intro fuel ds hf
    match fuel, hf with
    | f + 1, hf =>
      by_cases h0 : n / 10 = 0
      · simp only [Nat.toDigitsCore, h0, if_pos]
      · have hn : 0 < n := by
          rcases Nat.eq_zero_or_pos n with rfl | h
          · simp at h0
          · exact h
        have hlt : n / 10 < n := Nat.div_lt_self hn (by omega)
        have h1 : n / 10 < f := by omega
        simp only [Nat.toDigitsCore, h0, if_false]
        rw [ih (n / 10) hlt f _ h1, ih (n / 10) hlt n _ (by omega)]

theorem digitChar_val (d : Nat) (h : d < 10) : (Nat.digitChar d).toNat - 48 = d := by
  interval_cases d <;> rfl

theorem decodeDigits_append (l : List Char) (c : Char) :
    decodeDigits (l ++ [c]) = 10 * decodeDigits l + (c.toNat - 48) := by
  unfold decodeDigits
  rw [List.foldl_append]
  rfl

theorem decodeDigits_toDigits (n : Nat) :
    decodeDigits (Nat.toDigits 10 n) = n := by
  induction n using Nat.strong_induction_on with
  | _ n ih =>
    unfold Nat.toDigits
    by_cases h0 : n / 10 = 0
    · have hn : n < 10 := by omega
      have hm : n % 10 = n := Nat.mod_eq_of_lt hn
      simp only [Nat.toDigitsCore, h0, if_pos, hm]
      unfold decodeDigits
      simp only [List.foldl_cons, List.foldl_nil, Nat.mul_zero, Nat.zero_add]
      exact digitChar_val n hn
    · have hn : 0 < n := by
        rcases Nat.eq_zero_or_pos n with rfl | h
        · simp at h0
        · exact h
      have hlt : n / 10 < n := Nat.div_lt_self hn (by omega)
      simp only [Nat.toDigitsCore, h0, if_false]
      rw [toDigitsCore_fuel (n / 10) n (Nat.digitChar (n % 10) :: []) hlt]
      rw [toDigitsCore_append]
      rw [decodeDigits_append]
      have ihh := ih (n / 10) hlt
      unfold Nat.toDigits at ihh
      rw [ihh, digitChar_val (n % 10) (Nat.mod_lt n (by omega))]
      omega

theorem nat_repr_injective : Function.Injective Nat.repr := by
  intro m n h
  have hd : Nat.toDigits 10 m = Nat.toDigits 10 n := by
    have h2 := congrArg String.data h
    simpa [Nat.repr, List.asString] using h2
  have h3 := congrArg decodeDigits hd
  rwa [decodeDigits_toDigits, decodeDigits_toDigits] at h3

/-- Distinct counter values give distinct temp file paths. -/
theorem mkTempPath_injective (w : World) : Function.Injective (mkTempPath w) := by
  intro i j h
  unfold mkTempPath at h
  have hd := congrArg String.data h
  simp only [String.data_append] at hd
  have h1 := List.append_cancel_right hd
  have h2 := List.append_cancel_left h1
  exact nat_repr_injective (String.ext h2)

theorem writtenFiles_append (a b : List Ev) :
    writtenFiles (a ++ b) = writtenFiles a ++ writtenFiles b := by
  simp [writtenFiles, List.filterMap_append]

/-- Outcome of one load_style call under never-failing write and load
oracles, by style class: an inline style appends the counter-derived
path to the registry and writes exactly that file; any other style
leaves the registry unchanged and writes nothing. -/
theorem load_style_out (w : World) (eng : Nat) (sty : String) (tf : List Path)
    (vfs : VFS) (hw : w.fsWriteErr (mkTempPath w tf.length) sty = none)
    (hl : ∀ p, w.loadPathErr eng p = none) :
    (isInlineStyle sty = true →
      (load_style w eng sty tf vfs).temp_files = tf ++ [mkTempPath w tf.length] ∧
      writtenFiles (load_style w eng sty tf vfs).evs = [(mkTempPath w tf.length, sty)]) ∧
    (isInlineStyle sty = false →
      (load_style w eng sty tf vfs).temp_files = tf ∧
      writtenFiles (load_style w eng sty tf vfs).evs = []) := by
  constructor
  · intro hin
    unfold isInlineStyle at hin
    rcases Bool.and_eq_true_iff.mp hin with ⟨h1, hsw⟩
    have hrem0 : isRemoteStyle sty = false := by
      rcases hr : isRemoteStyle sty
      · rfl
      · rw [hr] at h1
        cases h1
    unfold isRemoteStyle at hrem0
    unfold load_style
    simp only [hrem0, Bool.false_eq_true, if_false, hsw, if_true, hw, hl]
    refine ⟨?_, ?_⟩ <;> simp [writtenFiles]
  · intro hnot
    unfold isInlineStyle at hnot
    by_cases hrem : isRemoteStyle sty = true
    · have hraw := hrem
      unfold isRemoteStyle at hraw
      unfold load_style
      simp only [hraw, if_true]
      rcases hp : w.parseUrl sty with _ | url <;> simp [hp, writtenFiles]
    · have hrem0 : isRemoteStyle sty = false := by simpa using hrem
      rw [hrem0] at hnot
      simp only [Bool.not_false, Bool.true_and] at hnot
      have hraw := hrem0
      unfold isRemoteStyle at hraw
      unfold load_style
      simp only [hraw, Bool.false_eq_true, if_false, hnot, hl]
      refine ⟨?_, ?_⟩ <;> simp [writtenFiles]

/-- Registry shape and written paths of a load sequence whose writes and
engine loads all succeed: starting from the canonical registry of length
n, the final registry is canonical of length n plus the number of inline
calls, and the written paths are exactly the counter-derived paths n,
n+1, and so on, one per inline call, in order. -/
theorem runLoads_inv (w : World) (hw : ∀ p c, w.fsWriteErr p c = none)
    (hl : ∀ eng p, w.loadPathErr eng p = none) :
    ∀ (calls : List (Nat × String)) (n : Nat) (vfs : VFS),
      (runLoads w calls ((List.range n).map (mkTempPath w)) vfs).1 =
        (List.range (n + inlineCount calls)).map (mkTempPath w) ∧
      (writtenFiles
          (runLoads w calls ((List.range n).map (mkTempPath w)) vfs).2.2).map
          Prod.fst =
        (List.range' n (inlineCount calls)).map (mkTempPath w) := by
  intro calls
  induction calls with
  | nil =>
    intro n vfs
    exact ⟨by simp [runLoads, inlineCount], by simp [runLoads, inlineCount, writtenFiles]⟩
  | cons c rest ih =>
    rcases c with ⟨eng, sty⟩
    intro n vfs
    have hlen : ((List.range n).map (mkTempPath w)).length = n := by simp
    rcases hls : load_style w eng sty ((List.range n).map (mkTempPath w)) vfs
      with ⟨res, tf1, vfs1, evs⟩
    have hout := load_style_out w eng sty ((List.range n).map (mkTempPath w)) vfs
      (hw _ _) (fun p => hl eng p)
    simp only [runLoads, hls]
    by_cases hc : isInlineStyle sty = true
    · obtain ⟨htf, hwr⟩ := hout.1 hc
      rw [hls] at htf hwr
      simp only [hlen] at htf hwr
      have htf2 : tf1 = (List.range (n + 1)).map (mkTempPath w) := by
        rw [htf, List.range_succ, List.map_append]
        rfl
      have hic : inlineCount ((eng, sty) :: rest) = inlineCount rest + 1 := by
        simp [inlineCount, List.countP_cons, hc]
      subst htf2
      obtain ⟨ihr, ihw⟩ := ih (n + 1) vfs1
      constructor
      · rw [ihr, hic]
        have h3 : n + 1 + inlineCount rest = n + (inlineCount rest + 1) := by omega
        rw [h3]
      · rw [writtenFiles_append, List.map_append, hwr, ihw, hic]
        rw [List.range'_succ]
        rfl
    · have hc2 : isInlineStyle sty = false := by simpa using hc
      obtain ⟨htf, hwr⟩ := hout.2 hc2
      rw [hls] at htf hwr
      simp only [hlen] at htf hwr
      have hic : inlineCount ((eng, sty) :: rest) = inlineCount rest := by
        simp [inlineCount, List.countP_cons, hc2]
      subst htf
      obtain ⟨ihr, ihw⟩ := ih n vfs1
      constructor
      · rw [ihr, hic]
      · rw [writtenFiles_append, List.map_append, hwr, ihw, hic]
        simp

/-- C4 (amended): under write and engine-load oracles that never fail,
every registered temp path is the counter-derived path of its position,
the registered paths never collide, the paths of the files written by
inline calls never collide, and every written file path is registered.
(When an engine load fails the written file is not registered and its
counter is reused: see the counterexample.) -/
theorem claim_C4_inline_path_uniqueness (w : World) (calls : List (Nat × String))
    (vfs : VFS) (hw : ∀ p c, w.fsWriteErr p c = none)
    (hl : ∀ eng p, w.loadPathErr eng p = none) :
    (runLoads w calls [] vfs).1 =
      (List.range (inlineCount calls)).map (mkTempPath w) ∧
    (runLoads w calls [] vfs).1.Nodup ∧
    ((writtenFiles (runLoads w calls [] vfs).2.2).map Prod.fst).Nodup ∧
    ∀ pc ∈ writtenFiles (runLoads w calls [] vfs).2.2,
      pc.1 ∈ (runLoads w calls [] vfs).1 := by
  obtain ⟨hr, hwadd⟩ := runLoads_inv w hw hl calls 0 vfs
  simp only [List.range_zero, List.map_nil, Nat.zero_add] at hr hwadd
  refine ⟨hr, ?_, ?_, ?_⟩
  · rw [hr]
    exact List.Nodup.map (mkTempPath_injective w) (List.nodup_range _)
  · rw [hwadd]
    exact List.Nodup.map (mkTempPath_injective w) (List.nodup_range' _ _)
  · intro pc hpc
    have hm : pc.1 ∈ (writtenFiles (runLoads w calls [] vfs).2.2).map Prod.fst :=
      List.mem_map_of_mem _ hpc
    rw [hwadd] at hm
    rw [hr, List.range_eq_range']
    exact hm

/-- Witness for C4 at a run of two inline loads and one path load under
the benign world. -/
theorem claim_C4_witness :
    (runLoads wOk [(0, "\x7ba\x7d"), (1, "\x7bb\x7d"), (2, "plain.json")] [] vfs0).1.Nodup :=
  (claim_C4_inline_path_uniqueness wOk
    [(0, "\x7ba\x7d"), (1, "\x7bb\x7d"), (2, "plain.json")] vfs0
    (fun _ _ => rfl) (fun _ _ => rfl)).2.1

/-- Counterexample to C4 as stated: when the engine rejects the first
inline load, the temp file has been created but is not registered
(registry stays empty), so the next inline init reuses counter 0 and
creates its file at the very same path: two distinct calls, colliding
temporary file paths within one run. -/
theorem claim_C4_counterexample :
    writtenFiles (Renderer.init wFail Renderer.new vfs0 0 1 1 "\x7ba\x7d" 1).evs =
      [("/tmp/mlnative_style_7_0.json", "\x7ba\x7d")] ∧
    (Renderer.init wFail Renderer.new vfs0 0 1 1 "\x7ba\x7d" 1).res =
      .error (.external "Style load rejected") ∧
    (Renderer.init wFail Renderer.new vfs0 0 1 1 "\x7ba\x7d" 1).rend.temp_files = [] ∧
    writtenFiles (Renderer.init wFail
      (Renderer.init wFail Renderer.new vfs0 0 1 1 "\x7ba\x7d" 1).rend
      (Renderer.init wFail Renderer.new vfs0 0 1 1 "\x7ba\x7d" 1).vfs
      (Renderer.init wFail Renderer.new vfs0 0 1 1 "\x7ba\x7d" 1).engCount
      1 1 "\x7bb\x7d" 1).evs =
      [("/tmp/mlnative_style_7_0.json", "\x7bb\x7d")] := by
  decide

end MlNative
